import Mathlib

/-!
Shallow embedding of the Green-Metrics-Extraction-Tool scripts
(`ExtractData.py`, `green_metrics_extractor.py`, `cloud_patterns_summary.py`).

Modelling conventions:
* JSON dictionaries are embedded as structures whose fields are `Option`-valued;
  `dict.get(key, default)` becomes `Option.getD`.  A raw `dict[key]` subscript
  (which can raise `KeyError`) is embedded as a `match` that produces
  `Except.error` on `none`.
* Python numbers are embedded as `ℤ`: occurrence counts and effort minutes
  are JSON integers, and the two-decimal value `round(effort / 480, 2)` is
  represented exactly by its value in hundredths of a person-day (so `1.00`
  is the integer `100` and `0.50` is `50`).  `round(x, 2)` is Python 3
  rounding, i.e. round-half-to-even, embedded exactly over the underlying
  integer fraction (the binary-float representation error of CPython is not
  modelled).
* `pandas.DataFrame.sort_values(col, ascending=False)` computes an ascending
  `argsort` and then reverses the whole indexer (`pandas.core.sorting.nargsort`:
  `indexer = non_nans.argsort(kind=kind); if not ascending: indexer = indexer[::-1]`).
  The underlying numpy introsort runs plain insertion sort on small arrays and
  is therefore stable there; the embedding models the sort as a stable
  ascending insertion sort followed by `List.reverse`.  In particular rows with
  equal keys come out in *reverse* encounter order.
* Python `sorted` on strings compares code points lexicographically; this is
  embedded by `charListLe` on `Char` values.
* `save_to_excel` is modelled up to the cell contents it writes: the worksheet
  of a detail table is a header row, one 6-cell row per detail row (columns
  A..F), and one TOTAL row; openpyxl formatting (fonts, number formats, column
  widths) and the actual file write are not modelled.
-/

namespace GreenMetrics

/-! ### Shared helpers: string order, sorting, rounding -/

/-- Lexicographic comparison of code-point lists, matching Python string
comparison (`sorted` on `str`). -/
def charListLe : List Char → List Char → Bool
  | [], _ => true
  | _ :: _, [] => false
  | c :: cs, d :: ds =>
    if c.toNat < d.toNat then true
    else if d.toNat < c.toNat then false
    else charListLe cs ds

/-- Python string order `a <= b` (code-point lexicographic). -/
def strLe (a b : String) : Prop := charListLe a.data b.data = true

instance : DecidableRel strLe := fun _ _ => inferInstanceAs (Decidable (_ = true))

/-- Comparison of rows by an integer key, as used by
`sort_values('Number of Occurrences')`. -/
def keyLe {α : Type} (key : α → ℤ) (a b : α) : Prop := key a ≤ key b

instance {α : Type} (key : α → ℤ) : DecidableRel (keyLe key) :=
  fun a b => inferInstanceAs (Decidable (key a ≤ key b))

instance {α : Type} (key : α → ℤ) : IsTotal α (keyLe key) :=
  ⟨fun _ _ => Int.le_total _ _⟩

instance {α : Type} (key : α → ℤ) : IsTrans α (keyLe key) :=
  ⟨fun _ _ _ => Int.le_trans⟩

/-- Embeds `DataFrame.sort_values(by=key, ascending=False)`: pandas `nargsort` sorts
ascending (stably, for the array sizes where numpy introsort degenerates to
insertion sort) and then reverses the whole indexer. -/
def sortDescBy {α : Type} (key : α → ℤ) (l : List α) : List α :=
  (List.insertionSort (keyLe key) l).reverse

/-- Python `sorted` on a collection of strings. -/
def sortStrings (l : List String) : List String := List.insertionSort strLe l

/-- Python `', '.join(l)`. -/
def joinCS (l : List String) : String := String.intercalate ", " l

/-- Adding one element to a Python `set`, modelled on duplicate-free lists
(order is irrelevant to the scripts: sets are only read through `sorted` and
`len`). -/
def insertNew (x : String) (l : List String) : List String :=
  if x ∈ l then l else l ++ [x]

/-- Embeds `set.update(names)` and building a set from an iterable. -/
def insertAllNew (names : List String) (l : List String) : List String :=
  names.foldl (fun acc n => insertNew n acc) l

/-- Embeds `pandas.Series.unique()`: duplicates removed, first-occurrence order
kept. -/
def firstDedup (l : List String) : List String :=
  l.foldl (fun acc x => insertNew x acc) []

/-- Round-half-to-even of the exact fraction `a / b` for positive `b`
(Python 3 `round`), using that `a / b` and `a % b` are floor division and
nonnegative remainder on `ℤ`. -/
def roundHalfEvenQuot (a b : ℤ) : ℤ :=
  let f := a / b
  let r := a % b
  if 2 * r < b then f
  else if b < 2 * r then f + 1
  else if f % 2 = 0 then f else f + 1

/-- Python `round(effort_min / 480, 2)` (ExtractData.py line 63,
cloud_patterns_summary.py line 53), represented exactly in hundredths of a
person-day: `round2pd 480 = 100` stands for 1.00. -/
def round2pd (effort_min : ℤ) : ℤ := roundHalfEvenQuot (100 * effort_min) 480

/-! ### Row and table data model -/

/-- One detail row extracted from the API payload: the first four columns of
the detail sheets.  The cost and tech-debt columns hold no extracted data
(they are `None` placeholders) and appear only at emission time. -/
structure DetailRow where
  pattern : String
  technology : String
  occurrences : ℤ
  effortPD : ℤ
deriving DecidableEq, Repr

/-- One row of a `Summary by Rule` sheet. -/
structure SummaryRow where
  pattern : String
  technologies : String
  occurrences : ℤ
deriving DecidableEq, Repr

/-- One row of the cloud script's `Pattern in Unique Apps` sheet. -/
structure UARow where
  pattern : String
  count : ℤ
deriving DecidableEq, Repr

/-- A spreadsheet cell as finally written by the scripts; `d2` is a numeric
cell carrying a two-decimal value, stored as its value in hundredths. -/
inductive Cell where
  | s (v : String)
  | i (v : ℤ)
  | d2 (v : ℤ)
  | empty
  | formula (f : String)
deriving DecidableEq, Repr

/-- Whether a cell holds a live spreadsheet formula. -/
def Cell.isFormula : Cell → Bool
  | .formula _ => true
  | _ => false

/-- Equality of extraction outcomes (a raised exception vs. returned tables)
is decidable. -/
instance {ε α : Type} [DecidableEq ε] [DecidableEq α] :
    DecidableEq (Except ε α) := fun a b =>
  match a, b with
  | Except.error e1, Except.error e2 =>
    if h : e1 = e2 then isTrue (by rw [h]) else isFalse (by simp [h])
  | Except.error _, Except.ok _ => isFalse (by simp)
  | Except.ok _, Except.error _ => isFalse (by simp)
  | Except.ok v1, Except.ok v2 =>
    if h : v1 = v2 then isTrue (by rw [h]) else isFalse (by simp [h])

/-- Bool-valued check that a list of integers is non-increasing. -/
def nonIncreasing : List ℤ → Bool
  | [] => true
  | [_] => true
  | a :: b :: t => decide (b ≤ a) && nonIncreasing (b :: t)

/-! ### Raw green JSON payload (application-scoped scripts) -/

/-- The nested `greenRequirement` object. -/
structure GreenRequirement where
  display : Option String
deriving DecidableEq, Repr

/-- One element of `greenIndexDetails`. -/
structure GreenIndexDetail where
  greenRequirement : Option GreenRequirement
  greenOccurrences : Option ℤ
  greenEffort : Option ℤ
deriving DecidableEq, Repr

/-- One element of `metrics[0].greenDetail`. -/
structure GreenDetail where
  technology : Option String
  greenIndexDetails : Option (List GreenIndexDetail)
deriving DecidableEq, Repr

/-- One element of `metrics`. -/
structure Metric where
  greenDetail : Option (List GreenDetail)
deriving DecidableEq, Repr

/-- The application-scoped API response body. -/
structure GreenResponse where
  metrics : Option (List Metric)
deriving DecidableEq, Repr

namespace ExtractData

/-- Body of the inner loop of `extract_green_data` (ExtractData.py lines
55-72): one `greenIndexDetails` element either yields a detail row or is
skipped when its occurrence count equals 0. -/
def rowOfDetail (technology : String) (d : GreenIndexDetail) : Option DetailRow :=
  let occurrences := d.greenOccurrences.getD 0
  if occurrences = 0 then none
  else
    let effort_min := d.greenEffort.getD 0
    some { pattern := (d.greenRequirement.getD ⟨none⟩).display.getD "N/A"
           technology := technology
           occurrences := occurrences
           effortPD := round2pd effort_min }

/-- Body of the outer loop of `extract_green_data`: rows contributed by one
`greenDetail` element.  The `continue` on a missing or empty
`greenIndexDetails` yields no rows. -/
def rowsOfTech (td : GreenDetail) : List DetailRow :=
  let technology := td.technology.getD "N/A"
  match td.greenIndexDetails with
  | none => []
  | some ds => ds.filterMap (rowOfDetail technology)

/-- Embeds `extract_green_data` of ExtractData.py, after the HTTP call: `none`
models every early `return None` (falsy response, missing/empty `metrics`,
missing/empty `greenDetail`, no surviving rows); otherwise the
occurrence-descending detail table. -/
def extract_green_data (data : GreenResponse) : Option (List DetailRow) :=
  match data.metrics with
  | none => none
  | some [] => none
  | some (metric :: _) =>
    match metric.greenDetail with
    | none => none
    | some [] => none
    | some gds =>
      let rows := gds.flatMap rowsOfTech
      if rows = [] then none
      else some (sortDescBy (fun r => r.occurrences) rows)

/-- The `config.json` contents read by `load_config` of ExtractData.py
(and green_metrics_extractor.py): each recognized key may be absent. -/
structure ConfigFile where
  HLInstance : Option String
  domain_id : Option String
  application_id : Option String
  api_key : Option String
deriving DecidableEq, Repr

/-- Embeds `load_config`: a missing/unreadable/unparsable file (the `except` branch,
modelled by `none`) yields all-`None`; otherwise `config.get` per key. -/
def load_config (file : Option ConfigFile) :
    Option String × Option String × Option String × Option String :=
  match file with
  | none => (none, none, none, none)
  | some c => (c.HLInstance, c.domain_id, c.application_id, c.api_key)

/-- Whether `main` reaches the network call: it aborts when `None` is among
the loaded values, and otherwise calls `extract_green_data`, whose first
action is `get_api_data`. -/
def mainRequests (file : Option ConfigFile) : Bool :=
  match load_config file with
  | (some _, some _, some _, some _) => true
  | _ => false

end ExtractData

namespace GreenExtractor

/-- The summary construction of `extract_green_data` of
green_metrics_extractor.py, built from
the occurrence-descending detail table: `groupby('Rule/Pattern')` iterates the
distinct patterns in ascending key order, each group keeping the detail
table's row order; the technologies cell is
`', '.join(group['Technology'].unique())` (first-occurrence order, *not*
sorted); then the summary is itself sorted descending by occurrences. -/
def summaryOf (detailSorted : List DetailRow) : List SummaryRow :=
  let keys := sortStrings (firstDedup (detailSorted.map (fun r => r.pattern)))
  sortDescBy (fun r => r.occurrences)
    (keys.map (fun k =>
      let grp := detailSorted.filter (fun r => decide (r.pattern = k))
      { pattern := k
        technologies := joinCS (firstDedup (grp.map (fun r => r.technology)))
        occurrences := (grp.map (fun r => r.occurrences)).sum }))

/-- Embeds `extract_green_data` of green_metrics_extractor.py: the detail extraction
is line-for-line that of ExtractData.py; additionally a summary table is
produced. -/
def extract_green_data (data : GreenResponse) :
    Option (List DetailRow × List SummaryRow) :=
  match ExtractData.extract_green_data data with
  | none => none
  | some d => some (d, summaryOf d)

end GreenExtractor

/-! ### Raw cloud JSON payload (domain-scoped script) -/

/-- One element of an item's `applications` list. -/
structure AppObj where
  name : Option String
deriving DecidableEq, Repr

/-- The nested `techno` object. -/
structure Techno where
  display : Option String
deriving DecidableEq, Repr

/-- One element of the domain-scoped cloud-requirements response list. -/
structure CloudItem where
  display : Option String
  techno : Option Techno
  roadBlocks : Option ℤ
  cloudEffort : Option ℤ
  applications : Option (List AppObj)
deriving DecidableEq, Repr

namespace CloudPatterns

/-- The loop state of `extract_data` of cloud_patterns_summary.py:
`detailed_rows`, the insertion-ordered dict `summary_by_pattern`
(pattern ↦ count and set of technologies), the insertion-ordered dict
`pattern_app_map` (pattern ↦ set of application names) and `all_apps_set`.
Python sets are modelled as duplicate-free lists (they are read only through
`sorted` and `len`). -/
structure CloudState where
  detailed : List DetailRow
  summary : List (String × ℤ × List String)
  patternApps : List (String × List String)
  allApps : List String
deriving DecidableEq, Repr

/-- The initial loop state. -/
def st0 : CloudState := ⟨[], [], [], []⟩

/-- The `summary_by_pattern` update: create the entry on first sight
(`{'count': 0, 'technos': set()}`), then `+= occurrences` and
`technos.add(technology)`. -/
def upsertSummary (p : String) (occ : ℤ) (tech : String) :
    List (String × ℤ × List String) → List (String × ℤ × List String)
  | [] => [(p, occ, insertNew tech [])]
  | (p', c, ts) :: rest =>
    if p = p' then (p', c + occ, insertNew tech ts) :: rest
    else (p', c, ts) :: upsertSummary p occ tech rest

/-- The `pattern_app_map` update: create the empty set on first sight, then
`update(app_names)`. -/
def upsertApps (p : String) (names : List String) :
    List (String × List String) → List (String × List String)
  | [] => [(p, insertAllNew names [])]
  | (p', apps) :: rest =>
    if p = p' then (p', insertAllNew names apps) :: rest
    else (p', apps) :: upsertApps p names rest

/-- The set comprehension `{app['name'] for app in applications}`: a raw
subscript, so an application object without a `name` key raises `KeyError`
(`Except.error`). -/
def appNames : List AppObj → Except Unit (List String)
  | [] => Except.ok []
  | a :: rest =>
    match a.name with
    | none => Except.error ()
    | some n =>
      match appNames rest with
      | Except.error e => Except.error e
      | Except.ok ns => Except.ok (n :: ns)

/-- One iteration of the `for item in response_json` loop of `extract_data`
(cloud_patterns_summary.py lines 43-73). -/
def cloudStep (st : CloudState) (item : CloudItem) : Except Unit CloudState :=
  let pattern := item.display.getD "N/A"
  let technology := (item.techno.getD ⟨none⟩).display.getD "N/A"
  let occurrences := item.roadBlocks.getD 0
  let effort_min := item.cloudEffort.getD 0
  let applications := item.applications.getD []
  if applications = [] ∨ occurrences = 0 then Except.ok st
  else
    match appNames applications with
    | Except.error e => Except.error e
    | Except.ok names =>
      Except.ok
        { detailed := st.detailed ++
            [{ pattern := pattern, technology := technology,
               occurrences := occurrences,
               effortPD := round2pd effort_min }]
          summary := upsertSummary pattern occurrences technology st.summary
          patternApps := upsertApps pattern names st.patternApps
          allApps := insertAllNew names st.allApps }

/-- The whole `for` loop; an uncaught `KeyError` aborts it. -/
def runItems (st : CloudState) : List CloudItem → Except Unit CloudState
  | [] => Except.ok st
  | item :: rest =>
    match cloudStep st item with
    | Except.error e => Except.error e
    | Except.ok st' => runItems st' rest

/-- The three tables built from the final loop state
(cloud_patterns_summary.py lines 75-98): the detail and summary tables are
sorted descending on occurrences, the unique-apps table is sorted descending
on the per-pattern distinct-application count, and a final
`Unique apps across all patterns` row is appended *after* sorting. -/
def cloudTables (st : CloudState) :
    List DetailRow × List SummaryRow × List UARow :=
  (sortDescBy (fun r => r.occurrences) st.detailed,
   sortDescBy (fun r => r.occurrences)
     (st.summary.map (fun x =>
       { pattern := x.1, technologies := joinCS (sortStrings x.2.2),
         occurrences := x.2.1 })),
   sortDescBy (fun r => r.count)
     (st.patternApps.map (fun x => { pattern := x.1, count := (x.2.length : ℤ) }))
   ++ [{ pattern := "Unique apps across all patterns",
         count := (st.allApps.length : ℤ) }])

/-- Embeds `extract_data` of cloud_patterns_summary.py: `none` input models a `None`
or non-list response (and an empty list is falsy too), both returning the
`(None, None, None)` triple; otherwise the loop runs and the three tables are
returned — there is no emptiness check on the surviving rows. -/
def extract_data (response : Option (List CloudItem)) :
    Except Unit (Option (List DetailRow × List SummaryRow × List UARow)) :=
  match response with
  | none => Except.ok none
  | some [] => Except.ok none
  | some items =>
    match runItems st0 items with
    | Except.error e => Except.error e
    | Except.ok st => Except.ok (some (cloudTables st))

/-- Whether `main` of cloud_patterns_summary.py writes an output file: it
calls `save_to_excel` exactly when the returned `detailed_df` is not `None`
(an empty DataFrame is not `None`); an uncaught exception writes nothing. -/
def mainSavesFile (response : Option (List CloudItem)) : Bool :=
  match extract_data response with
  | Except.ok (some _) => true
  | _ => false

/-- The `config.json` contents read by `load_config` of
cloud_patterns_summary.py (no `application_id`). -/
structure CloudConfigFile where
  HLInstance : Option String
  domain_id : Option String
  api_key : Option String
deriving DecidableEq, Repr

/-- Embeds `load_config` of cloud_patterns_summary.py. -/
def load_config (file : Option CloudConfigFile) :
    Option String × Option String × Option String :=
  match file with
  | none => (none, none, none)
  | some c => (c.HLInstance, c.domain_id, c.api_key)

/-- Whether `main` of cloud_patterns_summary.py reaches
`get_domain_cloud_data`: it aborts first when `None` is among the loaded
values. -/
def mainRequests (file : Option CloudConfigFile) : Bool :=
  match load_config file with
  | (some _, some _, some _) => true
  | _ => false

end CloudPatterns

/-! ### Report emission (`save_to_excel`), modelled up to cell contents -/

/-- The per-row tech-debt formula string written to cell F of each detail
row, referencing that row's effort (D) and cost (E) cells. -/
def techDebtFormula (row : ℕ) : String :=
  "=ROUND(D" ++ toString row ++ "*E" ++ toString row ++ ", 2)"

/-- The TOTAL-row tech-debt SUM formula string over the detail rows of
column F. -/
def sumFormula (lastDetailRow : ℕ) : String :=
  "=SUM(F2:F" ++ toString lastDetailRow ++ ")"

/-- The six cells A..F of one detail row as finally written: the cost cell is
the `None` placeholder (an empty cell) and the tech-debt cell is overwritten
with the live `ROUND` formula for its worksheet row number. -/
def detailCells (rowNum : ℕ) (r : DetailRow) : List Cell :=
  [Cell.s r.pattern, Cell.s r.technology, Cell.i r.occurrences,
   Cell.d2 r.effortPD, Cell.empty, Cell.formula (techDebtFormula rowNum)]

/-- The detail-row block of a detail sheet; the first detail row sits in
worksheet row 2 (row 1 is the header). -/
def detailBody (rowNum : ℕ) : List DetailRow → List (List Cell)
  | [] => []
  | r :: rs => detailCells rowNum r :: detailBody (rowNum + 1) rs

/-- Embeds the occurrence-column sum of the TOTAL row. -/
def sumOcc (rows : List DetailRow) : ℤ := (rows.map (fun r => r.occurrences)).sum

/-- The effort-column sum of the TOTAL row: the sum of the rounded
two-decimal values, exact in hundredths (the scripts sum floats). -/
def sumEffort (rows : List DetailRow) : ℤ := (rows.map (fun r => r.effortPD)).sum

/-- A detail sheet as finally written: header, detail rows, TOTAL row. -/
structure DetailSheet where
  header : List String
  body : List (List Cell)
  totalRow : List Cell
deriving DecidableEq, Repr

/-- The column header shared by all three detail sheets. -/
def detailHeader : List String :=
  ["Rule/Pattern", "Technology", "Number of Occurrences",
   "Effort by Occurrence (Person-day)", "Cost (FTE/Day)",
   "Tech Debt ($) Effort x Cost"]

/-- The detail sheet written by `save_to_excel` of ExtractData.py and of
green_metrics_extractor.py (identical cell layout): TOTAL row with summed
occurrence and effort columns, an empty-string cost cell, and the tech-debt
cell overwritten by `=SUM(F2:F{n+1})` for `n` detail rows. -/
def greenDetailSheet (rows : List DetailRow) : DetailSheet :=
  { header := detailHeader
    body := detailBody 2 rows
    totalRow := [Cell.s "TOTAL", Cell.s "", Cell.i (sumOcc rows),
                 Cell.d2 (sumEffort rows), Cell.s "",
                 Cell.formula (sumFormula (rows.length + 1))] }

/-- The `Detailed Cloud Metrics` sheet written by `save_to_excel` of
cloud_patterns_summary.py: the `ROUND` formulas cover exactly the detail rows
(rows 2 .. n+1, since `len(detailed_df)` already counts the TOTAL row), but no
`SUM` formula is ever written, so the TOTAL row's tech-debt cell keeps the
empty string placed in the DataFrame. -/
def cloudDetailSheet (rows : List DetailRow) : DetailSheet :=
  { header := detailHeader
    body := detailBody 2 rows
    totalRow := [Cell.s "TOTAL", Cell.s "", Cell.i (sumOcc rows),
                 Cell.d2 (sumEffort rows), Cell.s "", Cell.s ""] }

/-! ### Order properties of the embedded Python string comparison -/

/-- The code-point comparison is total. -/
theorem charListLe_total : ∀ a b : List Char, charListLe a b = true ∨ charListLe b a = true
  | [], _ => Or.inl rfl
  | _ :: _, [] => Or.inr rfl
  | c :: cs, d :: ds => by
    rcases Nat.lt_trichotomy c.toNat d.toNat with h | h | h
    · left
      simp [charListLe, h]
    · have h1 : ¬ c.toNat < d.toNat := by omega
      have h2 : ¬ d.toNat < c.toNat := by omega
      rcases charListLe_total cs ds with hrec | hrec
      · left
        simp [charListLe, h1, h2, hrec]
      · right
        simp [charListLe, h1, h2, hrec]
    · right
      simp [charListLe, h]

/-- The code-point comparison is transitive. -/
theorem charListLe_trans :
    ∀ a b c : List Char, charListLe a b = true → charListLe b c = true →
      charListLe a c = true
  | [], _, _, _, _ => rfl
  | _ :: _, [], _, hab, _ => by simp [charListLe] at hab
  | _ :: _, _ :: _, [], _, hbc => by simp [charListLe] at hbc
  | a :: as, b :: bs, c :: cs, hab, hbc => by
    simp only [charListLe] at hab hbc ⊢
    split at hab
    · split at hbc
      · rw [if_pos (by omega)]
      · split at hbc
        · simp at hbc
        · rw [if_pos (by omega)]
    · split at hab
      · simp at hab
      · split at hbc
        · rw [if_pos (by omega)]
        · split at hbc
          · simp at hbc
          · rw [if_neg (by omega), if_neg (by omega)]
            exact charListLe_trans as bs cs hab hbc

instance : IsTotal String strLe := ⟨fun a b => charListLe_total a.data b.data⟩

instance : IsTrans String strLe :=
  ⟨fun a b c hab hbc => charListLe_trans a.data b.data c.data hab hbc⟩

/-! ### Properties of the table sort -/

/-- Sorting permutes: membership is unchanged. -/
theorem mem_sortDescBy {α : Type} (key : α → ℤ) (l : List α) (x : α) :
    x ∈ sortDescBy key l ↔ x ∈ l := by
  rw [sortDescBy, List.mem_reverse, List.mem_insertionSort]

/-- The sorted table is non-increasing on its key. -/
theorem pairwise_sortDescBy {α : Type} (key : α → ℤ) (l : List α) :
    (sortDescBy key l).Pairwise (fun a b => key b ≤ key a) := by
  rw [sortDescBy, List.pairwise_reverse]
  exact (List.sorted_insertionSort (keyLe key) l).imp (fun h => h)

/-- Inserting into a list does not disturb the sublist of elements sharing any
fixed key value: either the inserted element lands in front of them all (equal
key) or the sublist is untouched. -/
theorem filter_orderedInsert {α : Type} (key : α → ℤ) (v : ℤ) (a : α) :
    ∀ l : List α,
      (l.orderedInsert (keyLe key) a).filter (fun x => decide (key x = v)) =
        if key a = v then a :: l.filter (fun x => decide (key x = v))
        else l.filter (fun x => decide (key x = v))
  | [] => by
    simp only [List.orderedInsert_nil]
    by_cases h : key a = v <;> simp [List.filter_cons, h]
  | b :: l => by
    simp only [List.orderedInsert]
    by_cases hab : keyLe key a b
    · rw [if_pos hab]
      by_cases h : key a = v <;> simp [List.filter_cons, h]
    · rw [if_neg hab]
      simp only [keyLe, not_le] at hab
      by_cases h : key a = v
      · have hb : ¬ key b = v := by omega
        simp [List.filter_cons, hb, h, filter_orderedInsert key v a l]
      · by_cases hb : key b = v <;>
          simp [List.filter_cons, hb, h, filter_orderedInsert key v a l]

/-- The ascending insertion sort is stable: the subsequence of rows sharing
any fixed key value keeps its input order. -/
theorem filter_insertionSort {α : Type} (key : α → ℤ) (v : ℤ) :
    ∀ l : List α,
      (List.insertionSort (keyLe key) l).filter (fun x => decide (key x = v)) =
        l.filter (fun x => decide (key x = v))
  | [] => rfl
  | a :: l => by
    simp only [List.insertionSort]
    rw [filter_orderedInsert]
    by_cases h : key a = v <;>
      simp [List.filter_cons, h, filter_insertionSort key v l]

/-- Descending sorting reverses the whole ascending indexer, so
rows with equal key values come out in reverse encounter order. -/
theorem filter_sortDescBy {α : Type} (key : α → ℤ) (v : ℤ) (l : List α) :
    (sortDescBy key l).filter (fun x => decide (key x = v)) =
      (l.filter (fun x => decide (key x = v))).reverse := by
  rw [sortDescBy, List.filter_reverse, filter_insertionSort]

/-! ### Properties of the set model -/

/-- Membership after a `set.add`. -/
theorem mem_insertNew {x y : String} {l : List String} :
    y ∈ insertNew x l ↔ y ∈ l ∨ y = x := by
  by_cases h : x ∈ l <;> simp only [insertNew, h, if_true, if_false]
  · constructor
    · exact Or.inl
    · rintro (hy | rfl) <;> assumption
  · simp

/-- Adding to a set keeps the list duplicate-free. -/
theorem nodup_insertNew {x : String} {l : List String} (h : l.Nodup) :
    (insertNew x l).Nodup := by
  by_cases hx : x ∈ l <;> simp only [insertNew, hx, if_true, if_false]
  · exact h
  · simp [List.nodup_append, h, hx]

/-- Membership after a `set.update`. -/
theorem mem_insertAllNew :
    ∀ (names l : List String) (y : String),
      y ∈ insertAllNew names l ↔ y ∈ l ∨ y ∈ names
  | [], l, y => by simp [insertAllNew]
  | n :: ns, l, y => by
    have ih := mem_insertAllNew ns (insertNew n l) y
    simp only [insertAllNew, List.foldl_cons] at ih ⊢
    rw [ih, mem_insertNew]
    simp only [List.mem_cons]
    tauto

/-- Updating a set keeps the list duplicate-free. -/
theorem nodup_insertAllNew :
    ∀ (names l : List String), l.Nodup → (insertAllNew names l).Nodup
  | [], _, h => h
  | n :: ns, l, h => by
    simpa only [insertAllNew, List.foldl_cons] using
      nodup_insertAllNew ns (insertNew n l) (nodup_insertNew h)

/-! ### Properties of the cloud extraction loop -/

open CloudPatterns

/-- Exhaustive description of one successful loop iteration: either the item
was skipped by the `if not applications or occurrences == 0` filter, or all
its applications carry a name and every piece of the state is extended. -/
theorem cloudStep_ok_cases (st : CloudState) (item : CloudItem) (st' : CloudState)
    (h : cloudStep st item = Except.ok st') :
    st' = st ∨
    ∃ names, appNames (item.applications.getD []) = Except.ok names ∧
      item.applications.getD [] ≠ [] ∧
      item.roadBlocks.getD 0 ≠ 0 ∧
      st' = { detailed := st.detailed ++
                [{ pattern := item.display.getD "N/A"
                   technology := (item.techno.getD ⟨none⟩).display.getD "N/A"
                   occurrences := item.roadBlocks.getD 0
                   effortPD := round2pd (item.cloudEffort.getD 0) }]
              summary := upsertSummary (item.display.getD "N/A")
                (item.roadBlocks.getD 0)
                ((item.techno.getD ⟨none⟩).display.getD "N/A") st.summary
              patternApps := upsertApps (item.display.getD "N/A") names
                st.patternApps
              allApps := insertAllNew names st.allApps } := by
  simp only [cloudStep] at h
  split at h
  · left
    injection h with h
    exact h.symm
  · next hc =>
    push_neg at hc
    split at h
    · simp at h
    · next names hnames =>
      right
      injection h with h
      exact ⟨names, hnames, hc.1, hc.2, h.symm⟩

/-- Any property of the loop state preserved by one iteration is preserved by
the whole loop. -/
theorem runItems_preserves {P : CloudState → Prop}
    (hstep : ∀ st item st', cloudStep st item = Except.ok st' → P st → P st') :
    ∀ (items : List CloudItem) (st st' : CloudState),
      runItems st items = Except.ok st' → P st → P st'
  | [], st, st', h, hp => by
    simp only [runItems] at h
    injection h with h
    exact h ▸ hp
  | item :: rest, st, st', h, hp => by
    simp only [runItems] at h
    cases hc : cloudStep st item with
    | error e => rw [hc] at h; simp at h
    | ok st1 =>
      rw [hc] at h
      exact runItems_preserves hstep rest st1 st' h (hstep st item st1 hc hp)

/-- The set comprehension over `applications` succeeds when every application
object has a `name` key. -/
theorem appNames_ok :
    ∀ apps : List AppObj, (∀ a ∈ apps, a.name ≠ none) →
      ∃ names, appNames apps = Except.ok names
  | [], _ => ⟨[], rfl⟩
  | a :: rest, h => by
    cases hn : a.name with
    | none => exact absurd hn (h a (List.mem_cons_self a rest))
    | some n =>
      obtain ⟨ns, hns⟩ := appNames_ok rest (fun b hb => h b (List.mem_cons_of_mem a hb))
      exact ⟨n :: ns, by simp only [appNames, hn, hns]⟩

/-- One loop iteration succeeds when every application of the item has a
name, whatever other keys are missing. -/
theorem cloudStep_ok_of_named (st : CloudState) (item : CloudItem)
    (h : ∀ a ∈ item.applications.getD [], a.name ≠ none) :
    ∃ st', cloudStep st item = Except.ok st' := by
  simp only [cloudStep]
  split
  · exact ⟨st, rfl⟩
  · obtain ⟨names, hnames⟩ := appNames_ok _ h
    rw [hnames]
    exact ⟨_, rfl⟩

/-- The whole loop succeeds when every application of every item has a
name. -/
theorem runItems_ok_of_named :
    ∀ (items : List CloudItem) (st : CloudState),
      (∀ i ∈ items, ∀ a ∈ i.applications.getD [], a.name ≠ none) →
      ∃ st', runItems st items = Except.ok st'
  | [], st, _ => ⟨st, rfl⟩
  | item :: rest, st, h => by
    obtain ⟨st1, h1⟩ :=
      cloudStep_ok_of_named st item (h item (List.mem_cons_self item rest))
    obtain ⟨st', h'⟩ :=
      runItems_ok_of_named rest st1 (fun i hi => h i (List.mem_cons_of_mem item hi))
    exact ⟨st', by simp only [runItems, h1, h']⟩

/-! ### Properties of the `summary_by_pattern` dict updates -/

/-- The keys after an update: unchanged when the pattern is already present,
appended otherwise. -/
theorem map_fst_upsertSummary (p : String) (occ : ℤ) (t : String) :
    ∀ l : List (String × ℤ × List String),
      (upsertSummary p occ t l).map (fun e => e.1) =
        if ∃ e ∈ l, e.1 = p then l.map (fun e => e.1)
        else l.map (fun e => e.1) ++ [p]
  | [] => by simp [upsertSummary]
  | (p', c, ts) :: rest => by
    by_cases hp : p = p'
    · rw [if_pos ⟨(p', c, ts), List.mem_cons_self _ _, hp.symm⟩]
      simp [upsertSummary, hp]
    · have hrec := map_fst_upsertSummary p occ t rest
      by_cases hex : ∃ e ∈ rest, e.1 = p
      · rw [if_pos (by obtain ⟨e, he, h1⟩ := hex; exact ⟨e, List.mem_cons_of_mem _ he, h1⟩)]
        rw [if_pos hex] at hrec
        simp [upsertSummary, if_neg hp, hrec]
      · rw [if_neg (by
          rintro ⟨e, he, h1⟩
          rcases List.mem_cons.mp he with rfl | he
          · exact hp h1.symm
          · exact hex ⟨e, he, h1⟩)]
        rw [if_neg hex] at hrec
        simp [upsertSummary, if_neg hp, hrec]

/-- Key membership after an update. -/
theorem mem_map_fst_upsertSummary (p : String) (occ : ℤ) (t : String)
    (l : List (String × ℤ × List String)) (q : String) :
    q ∈ (upsertSummary p occ t l).map (fun e => e.1) ↔
      q ∈ l.map (fun e => e.1) ∨ q = p := by
  rw [map_fst_upsertSummary]
  split
  · next hex =>
    constructor
    · exact Or.inl
    · rintro (h | rfl)
      · exact h
      · obtain ⟨e, he, h1⟩ := hex
        exact List.mem_map.mpr ⟨e, he, h1⟩
  · simp

/-- Updating keeps the keys duplicate-free. -/
theorem nodup_map_fst_upsertSummary (p : String) (occ : ℤ) (t : String)
    (l : List (String × ℤ × List String))
    (h : (l.map (fun e => e.1)).Nodup) :
    ((upsertSummary p occ t l).map (fun e => e.1)).Nodup := by
  rw [map_fst_upsertSummary]
  split
  · exact h
  · next hex =>
    have hp : p ∉ l.map (fun e => e.1) := by
      intro hm
      obtain ⟨e, he, h1⟩ := List.mem_map.mp hm
      exact hex ⟨e, he, h1⟩
    simp [List.nodup_append, h, hp]

/-- Entry membership after an update, for duplicate-free keys: other entries
survive untouched, the entry of the updated pattern gets the occurrence count
added and the technology inserted (created from the dict default on first
sight). -/
theorem mem_upsertSummary (p : String) (occ : ℤ) (t : String) :
    ∀ (l : List (String × ℤ × List String)) (e : String × ℤ × List String),
      (l.map (fun x => x.1)).Nodup →
      e ∈ upsertSummary p occ t l →
      (e ∈ l ∧ e.1 ≠ p) ∨
      (∃ c ts, (p, c, ts) ∈ l ∧ e = (p, c + occ, insertNew t ts)) ∨
      ((∀ c ts, (p, c, ts) ∉ l) ∧ e = (p, occ, insertNew t []))
  | [], e, _, he => by
    simp only [upsertSummary, List.mem_singleton] at he
    exact Or.inr (Or.inr ⟨fun c ts h => (List.not_mem_nil _ h), he⟩)
  | (p', c, ts) :: rest, e, hnodup, he => by
    simp only [List.map_cons, List.nodup_cons] at hnodup
    by_cases hp : p = p'
    · subst hp
      simp only [upsertSummary, if_pos rfl] at he
      rcases List.mem_cons.mp he with rfl | he
      · exact Or.inr (Or.inl ⟨c, ts, List.mem_cons_self _ _, rfl⟩)
      · left
        refine ⟨List.mem_cons_of_mem _ he, fun h1 => ?_⟩
        exact hnodup.1 (h1 ▸ List.mem_map.mpr ⟨e, he, rfl⟩)
    · simp only [upsertSummary, if_neg hp] at he
      rcases List.mem_cons.mp he with rfl | he
      · exact Or.inl ⟨List.mem_cons_self _ _, fun h1 => hp h1.symm⟩
      · rcases mem_upsertSummary p occ t rest e hnodup.2 he with
          ⟨hmem, hne⟩ | ⟨c1, ts1, hmem, heq⟩ | ⟨habs, heq⟩
        · exact Or.inl ⟨List.mem_cons_of_mem _ hmem, hne⟩
        · exact Or.inr (Or.inl ⟨c1, ts1, List.mem_cons_of_mem _ hmem, heq⟩)
        · refine Or.inr (Or.inr ⟨fun c2 ts2 h2 => ?_, heq⟩)
          rcases List.mem_cons.mp h2 with h2 | h2
          · exact hp (congrArg Prod.fst h2)
          · exact habs c2 ts2 h2

/-- Extending the state by one qualifying row keeps every summary entry's
technology set duplicate-free and tracking exactly the technologies of that
pattern's detail rows. -/
theorem summary_inv_extend
    (summary : List (String × ℤ × List String)) (detailed : List DetailRow)
    (p0 t0 : String) (occ0 : ℤ) (eff : ℤ)
    (hkeys : (summary.map (fun e => e.1)).Nodup)
    (hentries : ∀ e ∈ summary, e.2.2.Nodup ∧
      (∀ t, t ∈ e.2.2 ↔ ∃ r, r ∈ detailed ∧ r.pattern = e.1 ∧ r.technology = t))
    (hcover : ∀ r ∈ detailed, r.pattern ∈ summary.map (fun e => e.1)) :
    ∀ e ∈ upsertSummary p0 occ0 t0 summary, e.2.2.Nodup ∧
      (∀ t, t ∈ e.2.2 ↔
        ∃ r, r ∈ detailed ++ [⟨p0, t0, occ0, eff⟩] ∧
          r.pattern = e.1 ∧ r.technology = t) := by
  intro e he
  rcases mem_upsertSummary p0 occ0 t0 summary e hkeys he with
    ⟨hmem, hne⟩ | ⟨c, ts, hmem, rfl⟩ | ⟨habs, rfl⟩
  · obtain ⟨hnd, hiff⟩ := hentries e hmem
    refine ⟨hnd, fun t => ?_⟩
    rw [hiff t]
    constructor
    · rintro ⟨r, hr, h1, h2⟩
      exact ⟨r, List.mem_append_left _ hr, h1, h2⟩
    · rintro ⟨r, hr, h1, h2⟩
      rcases List.mem_append.mp hr with hr | hr
      · exact ⟨r, hr, h1, h2⟩
      · rw [List.mem_singleton] at hr
        subst hr
        exact absurd h1.symm hne
  · obtain ⟨hnd, hiff⟩ := hentries (p0, c, ts) hmem
    refine ⟨nodup_insertNew hnd, fun t => ?_⟩
    rw [mem_insertNew]
    constructor
    · rintro (ht | rfl)
      · obtain ⟨r, hr, h1, h2⟩ := (hiff t).mp ht
        exact ⟨r, List.mem_append_left _ hr, h1, h2⟩
      · exact ⟨⟨p0, t, occ0, eff⟩,
          List.mem_append_right _ (List.mem_singleton_self _), rfl, rfl⟩
    · rintro ⟨r, hr, h1, h2⟩
      rcases List.mem_append.mp hr with hr | hr
      · exact Or.inl ((hiff t).mpr ⟨r, hr, h1, h2⟩)
      · rw [List.mem_singleton] at hr
        subst hr
        exact Or.inr h2.symm
  · refine ⟨nodup_insertNew List.nodup_nil, fun t => ?_⟩
    rw [mem_insertNew]
    simp only [List.not_mem_nil, false_or]
    constructor
    · rintro rfl
      exact ⟨⟨p0, t, occ0, eff⟩,
        List.mem_append_right _ (List.mem_singleton_self _), rfl, rfl⟩
    · rintro ⟨r, hr, h1, h2⟩
      rcases List.mem_append.mp hr with hr | hr
      · exfalso
        obtain ⟨e', he', h1'⟩ := List.mem_map.mp (hcover r hr)
        have : e' = ((p0, e'.2.1, e'.2.2) : String × ℤ × List String) := by
          rw [← h1, ← h1']
        exact habs e'.2.1 e'.2.2 (this ▸ he')
      · rw [List.mem_singleton] at hr
        subst hr
        exact h2.symm

/-- One loop iteration preserves the complete summary invariant: duplicate-free
keys, duplicate-free technology sets tracking exactly the detail rows of each
pattern, and a summary entry for every detail row's pattern. -/
theorem cloudStep_summary_inv (st : CloudState) (item : CloudItem)
    (st' : CloudState) (h : cloudStep st item = Except.ok st')
    (hinv : (st.summary.map (fun e => e.1)).Nodup ∧
      (∀ e ∈ st.summary, e.2.2.Nodup ∧
        (∀ t, t ∈ e.2.2 ↔ ∃ r, r ∈ st.detailed ∧ r.pattern = e.1 ∧ r.technology = t)) ∧
      (∀ r ∈ st.detailed, r.pattern ∈ st.summary.map (fun e => e.1))) :
    (st'.summary.map (fun e => e.1)).Nodup ∧
      (∀ e ∈ st'.summary, e.2.2.Nodup ∧
        (∀ t, t ∈ e.2.2 ↔ ∃ r, r ∈ st'.detailed ∧ r.pattern = e.1 ∧ r.technology = t)) ∧
      (∀ r ∈ st'.detailed, r.pattern ∈ st'.summary.map (fun e => e.1)) := by
  obtain ⟨hkeys, hentries, hcover⟩ := hinv
  rcases cloudStep_ok_cases st item st' h with rfl | ⟨names, -, -, -, hst⟩
  · exact ⟨hkeys, hentries, hcover⟩
  · subst hst
    refine ⟨nodup_map_fst_upsertSummary _ _ _ _ hkeys,
      summary_inv_extend st.summary st.detailed _ _ _ _ hkeys hentries hcover,
      fun r hr => ?_⟩
    rw [mem_map_fst_upsertSummary]
    rcases List.mem_append.mp hr with hr | hr
    · exact Or.inl (hcover r hr)
    · rw [List.mem_singleton] at hr
      subst hr
      exact Or.inr rfl

/-! ### Shape of successful extractions -/

/-- Sorting does not change the number of rows. -/
theorem length_sortDescBy {α : Type} (key : α → ℤ) (l : List α) :
    (sortDescBy key l).length = l.length := by
  rw [sortDescBy, List.length_reverse, List.length_insertionSort]

/-- What one inner-loop iteration of the green extractors produces when it
produces a row. -/
theorem rowOfDetail_some (tech : String) (d : GreenIndexDetail) (r : DetailRow)
    (h : ExtractData.rowOfDetail tech d = some r) :
    d.greenOccurrences.getD 0 ≠ 0 ∧
    r = ⟨(d.greenRequirement.getD ⟨none⟩).display.getD "N/A", tech,
         d.greenOccurrences.getD 0, round2pd (d.greenEffort.getD 0)⟩ := by
  simp only [ExtractData.rowOfDetail] at h
  split at h
  · simp at h
  · next hocc =>
    injection h with h
    exact ⟨hocc, h.symm⟩

/-- A successful green extraction is non-empty and every row of it was
produced by `rowOfDetail`. -/
theorem extract_green_data_some (data : GreenResponse) (rows : List DetailRow)
    (h : ExtractData.extract_green_data data = some rows) :
    rows ≠ [] ∧ ∀ r ∈ rows, ∃ (tech : String) (dd : GreenIndexDetail),
      ExtractData.rowOfDetail tech dd = some r := by
  simp only [ExtractData.extract_green_data] at h
  split at h
  · simp at h
  · simp at h
  · split at h
    · simp at h
    · simp at h
    · split at h
      · simp at h
      · next hne =>
        injection h with h
        subst h
        constructor
        · intro hnil
          have hlen := congrArg List.length hnil
          simp only [length_sortDescBy, List.length_nil] at hlen
          exact hne (List.length_eq_zero.mp hlen)
        · intro r hr
          rw [mem_sortDescBy] at hr
          obtain ⟨td, _, hmem⟩ := List.mem_flatMap.mp hr
          simp only [ExtractData.rowsOfTech] at hmem
          cases hd : td.greenIndexDetails with
          | none => rw [hd] at hmem; simp at hmem
          | some ds =>
            rw [hd] at hmem
            obtain ⟨dd, _, heq⟩ := List.mem_filterMap.mp hmem
            exact ⟨td.technology.getD "N/A", dd, heq⟩

/-- A successful cloud extraction is the three tables of the final loop
state. -/
theorem extract_data_ok_some (items : List CloudItem) (d : List DetailRow)
    (s : List SummaryRow) (u : List UARow)
    (h : extract_data (some items) = Except.ok (some (d, s, u))) :
    ∃ st, runItems st0 items = Except.ok st ∧ cloudTables st = (d, s, u) := by
  cases items with
  | nil => simp [extract_data] at h
  | cons i rest =>
    simp only [extract_data] at h
    cases hrun : runItems st0 (i :: rest) with
    | error e => rw [hrun] at h; simp at h
    | ok st =>
      rw [hrun] at h
      injection h with h
      injection h with h
      exact ⟨st, rfl, h⟩

/-- The complete summary invariant holds for the final state of the loop. -/
theorem runItems_summary_inv (items : List CloudItem) (st : CloudState)
    (h : runItems st0 items = Except.ok st) :
    (st.summary.map (fun e => e.1)).Nodup ∧
      (∀ e ∈ st.summary, e.2.2.Nodup ∧
        (∀ t, t ∈ e.2.2 ↔ ∃ r, r ∈ st.detailed ∧ r.pattern = e.1 ∧ r.technology = t)) ∧
      (∀ r ∈ st.detailed, r.pattern ∈ st.summary.map (fun e => e.1)) :=
  runItems_preserves cloudStep_summary_inv items st0 st h
    ⟨List.nodup_nil, fun e he => absurd he (List.not_mem_nil e),
     fun r hr => absurd hr (List.not_mem_nil r)⟩

/-- Every detail row of the final loop state has a nonzero occurrence
count. -/
theorem runItems_detailed_nonzero (items : List CloudItem) (st : CloudState)
    (h : runItems st0 items = Except.ok st) :
    ∀ r ∈ st.detailed, r.occurrences ≠ 0 := by
  refine runItems_preserves
    (P := fun st => ∀ r ∈ st.detailed, r.occurrences ≠ 0) ?_ items st0 st h
    (fun r hr => absurd hr (List.not_mem_nil r))
  intro st1 item st2 hstep hst r hr
  rcases cloudStep_ok_cases st1 item st2 hstep with rfl | ⟨names, -, -, hocc, hst2⟩
  · exact hst r hr
  · subst hst2
    rcases List.mem_append.mp hr with hr | hr
    · exact hst r hr
    · rw [List.mem_singleton] at hr
      subst hr
      exact hocc

/-! ### Claim C1 -/

/-- C1, counterexample: the claim says every emitted detail row has
occurrences > 0 even for negative raw values, but the extractors only drop
`occurrences == 0`: a record with raw occurrence count -3 survives the filter
and is emitted with occurrences -3, which is not > 0. -/
theorem c1_counterexample :
    ExtractData.extract_green_data
        ⟨some [⟨some [⟨some "Tech1",
          some [⟨some ⟨some "R1"⟩, some (-3), some 0⟩]⟩]⟩]⟩ =
      some [⟨"R1", "Tech1", -3, 0⟩] ∧ ¬ ((-3 : ℤ) > 0) := by decide

/-- C1 (amended): a raw record produces a DetailRow only if its occurrence
count is nonzero — records with occurrence count 0 never appear, so every row
of every emitted detail table has occurrences ≠ 0 (negative raw values pass
the `occurrences == 0` filter and are emitted). -/
theorem c1_theorem :
    (∀ (data : GreenResponse) (rows : List DetailRow) (r : DetailRow),
        ExtractData.extract_green_data data = some rows → r ∈ rows →
        r.occurrences ≠ 0) ∧
    (∀ (items : List CloudItem) (d : List DetailRow) (s : List SummaryRow)
        (u : List UARow) (r : DetailRow),
        extract_data (some items) = Except.ok (some (d, s, u)) →
        r ∈ d → r.occurrences ≠ 0) := by
  constructor
  · intro data rows r h hr
    obtain ⟨-, hall⟩ := extract_green_data_some data rows h
    obtain ⟨tech, dd, heq⟩ := hall r hr
    obtain ⟨hocc, hr_eq⟩ := rowOfDetail_some tech dd r heq
    rw [hr_eq]
    exact hocc
  · intro items d s u r h hr
    obtain ⟨st, hrun, htab⟩ := extract_data_ok_some items d s u h
    simp only [cloudTables] at htab
    injection htab with h1 hrest
    subst h1
    rw [mem_sortDescBy] at hr
    exact runItems_detailed_nonzero items st hrun r hr

/-- C1, witness for the amended theorem at a concrete input. -/
theorem c1_witness : (⟨"R2", "T2", 4, 0⟩ : DetailRow).occurrences ≠ 0 :=
  c1_theorem.1
    ⟨some [⟨some [⟨some "T2", some [⟨some ⟨some "R2"⟩, some 4, some 0⟩]⟩]⟩]⟩
    [⟨"R2", "T2", 4, 0⟩] ⟨"R2", "T2", 4, 0⟩ (by decide) (by decide)

/-! ### Claim C2 -/

/-- C2, counterexample: the claim says a negative effort value yields 0.00,
but the code computes `round(effort_min / 480, 2)` unconditionally: a raw
effort of -480 minutes is emitted as -1.00, not 0.00. -/
theorem c2_counterexample :
    ExtractData.extract_green_data
        ⟨some [⟨some [⟨some "TechA",
          some [⟨some ⟨some "RA"⟩, some 1, some (-480)⟩]⟩]⟩]⟩ =
      some [⟨"RA", "TechA", 1, -100⟩] ∧ ¬ ((-100 : ℤ) = 0) := by decide

/-- C2 (amended): every extracted record's effort_person_days equals
`round(effort_minutes / 480, 2)` (round-half-to-even); 480 yields exactly
1.00, 241 yields 0.50, an absent effort defaults to 0 and yields 0.00, and a
negative effort yields the rounded negative quotient (e.g. -480 yields
-1.00). -/
theorem c2_theorem :
    round2pd 480 = 100 ∧
    round2pd 241 = 50 ∧
    round2pd 0 = 0 ∧
    round2pd (-480) = -100 ∧
    (∀ (tech : String) (d : GreenIndexDetail) (r : DetailRow),
        ExtractData.rowOfDetail tech d = some r →
        r.effortPD = round2pd (d.greenEffort.getD 0)) ∧
    (∀ (st : CloudState) (item : CloudItem) (st' : CloudState),
        cloudStep st item = Except.ok st' →
        st'.detailed = st.detailed ∨
        st'.detailed = st.detailed ++
          [⟨item.display.getD "N/A", (item.techno.getD ⟨none⟩).display.getD "N/A",
            item.roadBlocks.getD 0, round2pd (item.cloudEffort.getD 0)⟩]) := by
  refine ⟨by decide, by decide, by decide, by decide, ?_, ?_⟩
  · intro tech d r h
    rw [(rowOfDetail_some tech d r h).2]
  · intro st item st' h
    rcases cloudStep_ok_cases st item st' h with rfl | ⟨names, -, -, -, hst⟩
    · exact Or.inl rfl
    · subst hst
      exact Or.inr rfl

/-- C2, witness for the amended theorem at a concrete input. -/
theorem c2_witness :
    (⟨"RA", "TechA", 1, -100⟩ : DetailRow).effortPD =
      round2pd (Option.getD (some (-480 : ℤ)) 0) :=
  c2_theorem.2.2.2.2.1 "TechA" ⟨some ⟨some "RA"⟩, some 1, some (-480)⟩
    ⟨"RA", "TechA", 1, -100⟩ (by decide)

/-! ### Claim C3 -/

/-- C3, counterexample: the claim says every summary technologies cell is
lexicographically sorted, but green_metrics_extractor.py joins
`group['Technology'].unique()` in first-appearance order of the
occurrence-descending detail table: technologies Python (5 occurrences) and
Java (3) for the same pattern render as "Python, Java", not "Java,
Python". -/
theorem c3_counterexample :
    GreenExtractor.extract_green_data
        ⟨some [⟨some [⟨some "Python", some [⟨some ⟨some "P"⟩, some 5, some 0⟩]⟩,
                      ⟨some "Java", some [⟨some ⟨some "P"⟩, some 3, some 0⟩]⟩]⟩]⟩ =
      some ([⟨"P", "Python", 5, 0⟩, ⟨"P", "Java", 3, 0⟩],
            [⟨"P", "Python, Java", 8⟩]) ∧
    "Python, Java" ≠ "Java, Python" := by decide

/-- C3 (amended): in the cloud script the technologies cell of each summary
row is the comma-space join of a duplicate-free, code-point-sorted list
holding exactly the technology names of that pattern's detail rows; in
green_metrics_extractor.py it is the duplicate-free comma-space join of that
pattern's detail technologies in first-appearance order of the
occurrence-descending detail table, not sorted. -/
theorem c3_theorem :
    (∀ (items : List CloudItem) (d : List DetailRow) (s : List SummaryRow)
        (u : List UARow),
        extract_data (some items) = Except.ok (some (d, s, u)) →
        ∀ row ∈ s, ∃ ts : List String, ts.Nodup ∧
          row.technologies = joinCS (sortStrings ts) ∧
          (sortStrings ts).Sorted strLe ∧ (sortStrings ts).Nodup ∧
          (∀ t, t ∈ ts ↔ ∃ r, r ∈ d ∧ r.pattern = row.pattern ∧
            r.technology = t)) ∧
    (∀ (data : GreenResponse) (d : List DetailRow) (s : List SummaryRow),
        GreenExtractor.extract_green_data data = some (d, s) →
        ∀ row ∈ s,
          row.technologies = joinCS (firstDedup
            ((d.filter (fun r => decide (r.pattern = row.pattern))).map
              (fun r => r.technology)))) := by
  constructor
  · intro items d s u h row hrow
    obtain ⟨st, hrun, htab⟩ := extract_data_ok_some items d s u h
    simp only [cloudTables] at htab
    injection htab with h1 hrest
    injection hrest with h2 h3
    subst h1
    subst h2
    obtain ⟨hkeys, hentries, -⟩ := runItems_summary_inv items st hrun
    rw [mem_sortDescBy] at hrow
    obtain ⟨e, he, hmk⟩ := List.mem_map.mp hrow
    subst hmk
    obtain ⟨hnd, hiff⟩ := hentries e he
    refine ⟨e.2.2, hnd, rfl, List.sorted_insertionSort strLe e.2.2,
      ((List.perm_insertionSort strLe e.2.2).nodup_iff).mpr hnd, fun t => ?_⟩
    rw [hiff t]
    simp only [mem_sortDescBy]
  · intro data d s h row hrow
    simp only [GreenExtractor.extract_green_data] at h
    split at h
    · simp at h
    · next d0 hed =>
      injection h with h
      injection h with h1 h2
      subst h1
      subst h2
      simp only [GreenExtractor.summaryOf] at hrow
      rw [mem_sortDescBy] at hrow
      obtain ⟨k, hk, hmk⟩ := List.mem_map.mp hrow
      subst hmk
      rfl

/-- C3, witness for the amended theorem at a concrete input. -/
theorem c3_witness :
    (⟨"RZ", "Ruby", 2⟩ : SummaryRow).technologies =
      joinCS (firstDedup ((([⟨"RZ", "Ruby", 2, 0⟩] : List DetailRow).filter
        (fun r => decide (r.pattern = (⟨"RZ", "Ruby", 2⟩ : SummaryRow).pattern))).map
        (fun r => r.technology))) :=
  c3_theorem.2
    ⟨some [⟨some [⟨some "Ruby", some [⟨some ⟨some "RZ"⟩, some 2, some 0⟩]⟩]⟩]⟩
    [⟨"RZ", "Ruby", 2, 0⟩] [⟨"RZ", "Ruby", 2⟩] (by decide)
    ⟨"RZ", "Ruby", 2⟩ (by decide)

/-! ### Claim C4 -/

/-- C4, counterexample: patterns A and B are encountered with occurrences
5, 5 (A first) and C with 3, but the emitted tables list B's row before A's —
pandas reverses the whole ascending indexer for `ascending=False`, so ties
come out in reverse encounter order, not input order; moreover the
unique-apps sheet appends the all-patterns row (count 2) after sorting, so
that table is not descending on its count column. -/
theorem c4_counterexample :
    extract_data (some
        [⟨some "A", some ⟨some "T"⟩, some 5, some 0, some [⟨some "x"⟩]⟩,
         ⟨some "B", some ⟨some "T"⟩, some 5, some 0, some [⟨some "y"⟩]⟩,
         ⟨some "C", some ⟨some "T"⟩, some 3, some 0, some [⟨some "x"⟩]⟩]) =
      Except.ok (some
        ([⟨"B", "T", 5, 0⟩, ⟨"A", "T", 5, 0⟩, ⟨"C", "T", 3, 0⟩],
         [⟨"B", "T", 5⟩, ⟨"A", "T", 5⟩, ⟨"C", "T", 3⟩],
         [⟨"C", 1⟩, ⟨"B", 1⟩, ⟨"A", 1⟩,
          ⟨"Unique apps across all patterns", 2⟩])) ∧
    (⟨"A", "T", 5, 0⟩ : DetailRow) ≠ ⟨"B", "T", 5, 0⟩ ∧
    nonIncreasing ([⟨"C", 1⟩, ⟨"B", 1⟩, ⟨"A", 1⟩,
      (⟨"Unique apps across all patterns", 2⟩ : UARow)].map UARow.count) =
      false := by decide

/-- C4 (amended): every emitted table is non-increasing on its count column,
except that the unique-apps table is only non-increasing before its trailing
all-patterns row; rows with equal count values appear in *reverse* order of
first encounter (pandas sorts ascending and reverses the indexer). -/
theorem c4_theorem :
    (∀ (α : Type) (key : α → ℤ) (l : List α),
        (sortDescBy key l).Pairwise (fun a b => key b ≤ key a)) ∧
    (∀ (α : Type) (key : α → ℤ) (v : ℤ) (l : List α),
        (sortDescBy key l).filter (fun x => decide (key x = v)) =
          (l.filter (fun x => decide (key x = v))).reverse) ∧
    (∀ st : CloudState,
        ((cloudTables st).2.2.dropLast).Pairwise
          (fun a b => b.count ≤ a.count)) := by
  refine ⟨fun α key l => pairwise_sortDescBy key l,
          fun α key v l => filter_sortDescBy key v l,
          fun st => ?_⟩
  simp only [cloudTables]
  rw [List.dropLast_concat]
  exact pairwise_sortDescBy (fun r : UARow => r.count) _

/-! ### Claim C5 -/

/-- C5 (confirmed): in every emitted detail table the appended TOTAL row's
occurrence cell (column C) holds the exact integer sum of the detail rows'
occurrence values and its cost cell (column E) is the blank string. -/
theorem c5_theorem :
    ∀ rows : List DetailRow,
      (greenDetailSheet rows).totalRow[2]? = some (Cell.i (sumOcc rows)) ∧
      (greenDetailSheet rows).totalRow[4]? = some (Cell.s "") ∧
      (cloudDetailSheet rows).totalRow[2]? = some (Cell.i (sumOcc rows)) ∧
      (cloudDetailSheet rows).totalRow[4]? = some (Cell.s "") ∧
      sumOcc rows = (rows.map (fun r => r.occurrences)).sum :=
  fun _ => ⟨rfl, rfl, rfl, rfl, rfl⟩

/-! ### Claim C6 -/

/-- The tech-debt column of the detail-row block: row `i` of the block (in
worksheet row `n + i`) carries the live `ROUND` formula for its own row
number. -/
theorem detailBody_techDebt (n : ℕ) :
    ∀ rows : List DetailRow,
      (detailBody n rows).map (fun r => r[5]?) =
        (List.range rows.length).map
          (fun i => some (Cell.formula (techDebtFormula (n + i))))
  | [] => rfl
  | r :: rs => by
    have ih := detailBody_techDebt (n + 1) rs
    have hshift : ∀ i : ℕ, n + 1 + i = n + (i + 1) := fun i => by omega
    simp only [hshift] at ih
    simp only [detailBody, List.map_cons, List.length_cons,
      List.range_succ_eq_map, List.map_map, Function.comp_def, Nat.add_zero, ih]
    rfl

/-- C6, counterexample: the claim says the TOTAL row's tech-debt cell is a
SUM formula, but the cloud script never writes one — its TOTAL tech-debt
cell keeps the empty string placed in the DataFrame. -/
theorem c6_counterexample :
    ((cloudDetailSheet [⟨"CP1", "TechX", 2, 50⟩]).totalRow[5]?).map
      Cell.isFormula = some false ∧
    (cloudDetailSheet [⟨"CP1", "TechX", 2, 50⟩]).totalRow[5]? =
      some (Cell.s "") := by decide

/-- C6 (amended): in every emitted detail table each detail row's tech-debt
cell is the live formula `=ROUND(D<row>*E<row>, 2)` for its own worksheet
row; the TOTAL row's tech-debt cell is the SUM formula over the detail rows
in the two green scripts, but is blank (no formula) in the cloud script. -/
theorem c6_theorem :
    ∀ rows : List DetailRow,
      (greenDetailSheet rows).body.map (fun r => r[5]?) =
        (List.range rows.length).map
          (fun i => some (Cell.formula (techDebtFormula (2 + i)))) ∧
      (cloudDetailSheet rows).body.map (fun r => r[5]?) =
        (List.range rows.length).map
          (fun i => some (Cell.formula (techDebtFormula (2 + i)))) ∧
      (greenDetailSheet rows).totalRow[5]? =
        some (Cell.formula (sumFormula (rows.length + 1))) ∧
      (cloudDetailSheet rows).totalRow[5]? = some (Cell.s "") :=
  fun rows =>
    ⟨detailBody_techDebt 2 rows, detailBody_techDebt 2 rows, rfl, rfl⟩

/-! ### Claim C7 -/

/-- C7, counterexample: a well-formed cloud response whose only record is
filtered out by the zero-occurrence rule still produces tables (an empty
detail table plus the all-patterns row), so `main` calls `save_to_excel` and
an output file is created — there is no early exit. -/
theorem c7_counterexample :
    extract_data (some [⟨some "P", some ⟨some "T"⟩, some 0, some 0,
        some [⟨some "x"⟩]⟩]) =
      Except.ok (some ([], [], [⟨"Unique apps across all patterns", 0⟩])) ∧
    mainSavesFile (some [⟨some "P", some ⟨some "T"⟩, some 0, some 0,
        some [⟨some "x"⟩]⟩]) = true := by decide

/-- C7 (amended): the green extractors do return `None` (diagnostic, no
file) when no qualifying row remains, and the cloud script exits early on a
`None`, non-list or empty response; but a non-empty cloud response always
yields tables (even with every record filtered out), so an output file is
written. -/
theorem c7_theorem :
    (∀ (data : GreenResponse) (rows : List DetailRow),
        ExtractData.extract_green_data data = some rows → rows ≠ []) ∧
    extract_data none = Except.ok none ∧
    extract_data (some []) = Except.ok none ∧
    (∀ items : List CloudItem, items ≠ [] →
        (∀ i ∈ items, ∀ a ∈ i.applications.getD [], a.name ≠ none) →
        mainSavesFile (some items) = true) := by
  refine ⟨fun data rows h => (extract_green_data_some data rows h).1, rfl, rfl, ?_⟩
  intro items hne hnames
  cases items with
  | nil => exact absurd rfl hne
  | cons i rest =>
    obtain ⟨st, hok⟩ := runItems_ok_of_named (i :: rest) st0 hnames
    simp only [mainSavesFile, extract_data, hok]

/-- C7, witness for the amended theorem at a concrete input. -/
theorem c7_witness :
    mainSavesFile (some [⟨some "Q", some ⟨some "TQ"⟩, some 2, some 960,
        some [⟨some "appZ"⟩]⟩]) = true :=
  c7_theorem.2.2.2 _ (by decide) (by decide)

/-! ### Claim C8 -/

/-- C8 (confirmed): a missing/unreadable config file or a missing key leaves
the affected field(s) `None`, and `main` aborts before any network request
whenever some loaded field is `None` — in both the application-scoped and the
cloud script. -/
theorem c8_theorem :
    (ExtractData.load_config none = (none, none, none, none) ∧
      ExtractData.mainRequests none = false) ∧
    (∀ c : ExtractData.ConfigFile,
        ExtractData.load_config (some c) =
          (c.HLInstance, c.domain_id, c.application_id, c.api_key)) ∧
    (∀ c : ExtractData.ConfigFile,
        c.HLInstance = none ∨ c.domain_id = none ∨ c.application_id = none ∨
          c.api_key = none →
        ExtractData.mainRequests (some c) = false) ∧
    (CloudPatterns.load_config none = (none, none, none) ∧
      CloudPatterns.mainRequests none = false) ∧
    (∀ c : CloudConfigFile,
        CloudPatterns.load_config (some c) =
          (c.HLInstance, c.domain_id, c.api_key)) ∧
    (∀ c : CloudConfigFile,
        c.HLInstance = none ∨ c.domain_id = none ∨ c.api_key = none →
        CloudPatterns.mainRequests (some c) = false) := by
  refine ⟨⟨rfl, rfl⟩, fun c => rfl, ?_, ⟨rfl, rfl⟩, fun c => rfl, ?_⟩
  · rintro ⟨i, dm, a, k⟩ h
    rcases i with _ | i <;> rcases dm with _ | dm <;> rcases a with _ | a <;>
      rcases k with _ | k <;> first | rfl | simp_all
  · rintro ⟨i, dm, k⟩ h
    rcases i with _ | i <;> rcases dm with _ | dm <;> rcases k with _ | k <;>
      first | rfl | simp_all

/-- C8, witness at a concrete config missing only `api_key`. -/
theorem c8_witness :
    ExtractData.mainRequests (some ⟨some "inst", some "d1", some "a1", none⟩) =
      false :=
  c8_theorem.2.2.1 ⟨some "inst", some "d1", some "a1", none⟩
    (Or.inr (Or.inr (Or.inr rfl)))

/-! ### Claim C9 -/

/-- C9, counterexample: an application object without a `name` key makes the
cloud extraction raise (`app['name']` is a raw subscript), so a missing
optional field CAN cause extraction to fail, contrary to the claim. -/
theorem c9_counterexample :
    extract_data (some [⟨some "P", some ⟨some "T"⟩, some 1, some 0,
        some [⟨none⟩]⟩]) = Except.error () := by decide

/-- C9 (amended): every missing field read through `.get` defaults (text
fields to "N/A", numeric fields to 0, containers to empty) and never fails —
including the nested technology object — but a missing `name` inside an
applications-list object of the cloud extractor raises a KeyError; with all
application names present, one loop iteration always succeeds whatever other
fields are absent. -/
theorem c9_theorem :
    (∀ k : ℤ, k ≠ 0 →
        ExtractData.rowsOfTech ⟨none, some [⟨none, some k, none⟩]⟩ =
          [⟨"N/A", "N/A", k, 0⟩]) ∧
    (∀ (st : CloudState) (item : CloudItem),
        (∀ a ∈ item.applications.getD [], a.name ≠ none) →
        ∃ st', cloudStep st item = Except.ok st') ∧
    (∀ k : ℤ, k ≠ 0 →
        cloudStep st0 ⟨none, none, some k, none, some [⟨some "A1"⟩]⟩ =
          Except.ok ⟨[⟨"N/A", "N/A", k, 0⟩], [("N/A", k, ["N/A"])],
            [("N/A", ["A1"])], ["A1"]⟩) := by
  refine ⟨?_, cloudStep_ok_of_named, ?_⟩
  · intro k hk
    simp [ExtractData.rowsOfTech, ExtractData.rowOfDetail, hk, round2pd,
      roundHalfEvenQuot]
  · intro k hk
    simp only [cloudStep]
    rw [if_neg (by simp [hk])]
    simp [appNames, upsertSummary, upsertApps, insertAllNew, insertNew, st0,
      round2pd, roundHalfEvenQuot]

/-- C9, witness for the amended theorem at a concrete input. -/
theorem c9_witness :
    ExtractData.rowsOfTech ⟨none, some [⟨none, some 7, none⟩]⟩ =
      [⟨"N/A", "N/A", 7, 0⟩] :=
  c9_theorem.1 7 (by decide)

/-! ### Claim C10 -/

/-- C10 (confirmed): a cloud record whose applications list is empty or
absent is skipped whole — no detail row, no summary update, no unique-apps
update — even when its occurrence count is positive; the loop state is
untouched. -/
theorem c10_theorem :
    ∀ (st : CloudState) (item : CloudItem),
      item.applications = none ∨ item.applications = some [] →
      cloudStep st item = Except.ok st ∧
      ∀ rest : List CloudItem,
        runItems st (item :: rest) = runItems st rest := by
  intro st item h
  have happ : item.applications.getD [] = [] := by
    rcases h with h | h <;> rw [h] <;> rfl
  have hstep : cloudStep st item = Except.ok st := by
    simp only [cloudStep, happ]
    rw [if_pos (Or.inl trivial)]
  exact ⟨hstep, fun rest => by simp only [runItems, hstep]⟩

/-- C10, witness at a concrete item with positive occurrences and no
applications key. -/
theorem c10_witness :
    cloudStep st0 ⟨some "PX", some ⟨some "TX"⟩, some 9, some 480, none⟩ =
      Except.ok st0 :=
  (c10_theorem st0 ⟨some "PX", some ⟨some "TX"⟩, some 9, some 480, none⟩
    (Or.inl rfl)).1

end GreenMetrics

